import Mathlib

/-!
Shallow embedding of the plugin-loading CLI dispatcher and its
configuration-driven module discovery from `sle-prjmgr-tools`
(`sle_prjmgr_tools/cli.py` and `sle_prjmgr_tools/config/__init__.py`),
together with theorems settling the frozen claims about it.

Modelling conventions:
- the process environment is a partial map `String → Option String`;
- the filesystem is a map from path strings to a `FileView` describing
  what `os.path.isfile` and `open` + `json.load` observe at that path;
- Python exceptions are the explicit error values of `PyError`;
- `os.path.expandvars` is embedded faithfully after CPython's
  `posixpath.expandvars` (regex `\$(\w+|\x7b[^\x7d]*\x7d)` with `re.ASCII`):
  set variables are replaced by their values (replacement text is not
  rescanned), references to unset variables are left unchanged.
-/

/-- A process environment: maps a variable name to its value when set. -/
abbrev EnvT := String → Option String

/-- The dollar character that triggers variable expansion. -/
def dollar : Char := '$'

/-- Opening brace character, written via its code point. -/
def lbrace : Char := Char.ofNat 123

/-- Closing brace character, written via its code point. -/
def rbrace : Char := Char.ofNat 125

/-- ASCII word characters, the `\w` class of CPython's variable regex under
`re.ASCII`: letters, digits and underscore. -/
def isVarChar (c : Char) : Bool := c.isAlphanum || c = '_'

/-- Membership of a character in a string (Python's `c in s`), over the
string's character list. -/
def strContains (s : String) (c : Char) : Bool := s.data.contains c

/-- Whether a string starts with the given character (the `argparse`
test distinguishing optional arguments from positionals). -/
def strStartsWith (s : String) (c : Char) : Bool :=
  match s.data with
  | [] => false
  | d :: _ => d = c

/-- Recognise a variable reference directly after a `$`, as CPython's
`posixpath.expandvars` regex does: either a maximal nonempty run of word
characters, or a brace-delimited run of non-brace characters. Returns the
variable name and the number of characters the reference occupies after
the `$`; `none` when the `$` begins no well-formed reference. -/
def parseVarRef : List Char → Option (String × Nat)
  | [] => none
  | c :: cs =>
    if c = lbrace then
      let inner := cs.takeWhile (fun x => !(x = rbrace))
      if inner.length < cs.length then some (String.mk inner, inner.length + 2)
      else none
    else
      let name := (c :: cs).takeWhile isVarChar
      if name.isEmpty then none else some (String.mk name, name.length)

/-- One left-to-right scan of `posixpath.expandvars`: set variables are
substituted (the substituted text is not rescanned), unset references are
copied through unchanged. The `Nat` argument is recursion fuel; each step
consumes at least one character, so fuel equal to the list length is never
exhausted (the fuel-zero row can only see the empty list, which it returns). -/
def scanExpand (env : EnvT) : Nat → List Char → List Char
  | 0, l => l
  | _ + 1, [] => []
  | fuel + 1, c :: rest =>
    if c = dollar then
      match parseVarRef rest with
      | some (name, len) =>
        match env name with
        | some v => v.data ++ scanExpand env fuel (rest.drop len)
        | none => c :: (rest.take len ++ scanExpand env fuel (rest.drop len))
      | none => c :: scanExpand env fuel rest
    else c :: scanExpand env fuel rest

/-- Embedding of `os.path.expandvars` (CPython `posixpath.expandvars`),
including its early return for strings containing no `$`. -/
def expandvars (env : EnvT) (path : String) : String :=
  if strContains path dollar then String.mk (scanExpand env path.data.length path.data)
  else path

/-- What `os.path.isfile` plus `open` + `json.load` + `dict.get("modules")`
observe at one path. `readable` carries the parse of the file's bytes at the
granularity the CLI inspects them. -/
inductive JsonDoc
  /-- The bytes are not valid JSON: `json.load` raises `JSONDecodeError`. -/
  | malformed
  /-- A JSON object; `modules` is `none` when the object has no
  `"modules"` key (then `dict.get` returns `None`). -/
  | obj (modules : Option (List String))
  /-- Valid JSON that is not an object: `.get` raises `AttributeError`. -/
  | nonObj
deriving DecidableEq

/-- The state of one filesystem path as the resolver can observe it. -/
inductive FileView
  /-- `os.path.isfile` is false (no entry, or not a regular file). -/
  | absent
  /-- `os.path.isfile` is true but `open` raises an `OSError`
  (permission denied, or the file vanished before the open). -/
  | unreadable
  /-- `os.path.isfile` is true and the content reads as `doc`. -/
  | readable (doc : JsonDoc)
deriving DecidableEq

/-- A filesystem state. -/
abbrev FsT := String → FileView

/-- Embedding of `os.path.isfile` over a filesystem state. -/
def isfile (fs : FsT) (path : String) : Bool :=
  match fs path with
  | .absent => false
  | .unreadable => true
  | .readable _ => true

/-- The Python exceptions and exits the embedded code can surface. -/
inductive PyError
  /-- `OSError` from `open` (the `with open(path)` is outside the guarded
  `try`, so this class is never converted to an empty list). -/
  | osError
  /-- `AttributeError`, e.g. `.get` on a non-dict or `args.func` when the
  parsed namespace binds no handler. -/
  | attributeError
  /-- `TypeError`, e.g. iterating over `None`. -/
  | typeError
  /-- `socket.gaierror`: the target host name could not be resolved. -/
  | gaierror
  /-- `SystemExit(code)`, raised by `argparse` on a parse failure. -/
  | systemExit (code : Nat)
  /-- `ModuleNotFoundError` from `importlib.import_module`. -/
  | moduleNotFound
deriving DecidableEq

namespace Cli

/-- `CONFIG_LOCATIONS` from `sle_prjmgr_tools/cli.py`. -/
def CONFIG_LOCATIONS : List String :=
  ["/etc/sle-prjmgr-tools.json",
   "$XDG_CONFIG_HOME/sle-prjmgr-tools.json",
   "$RELEASE_MANAGEMENT_TOOLS_FILE"]

/-- `load_config` from `sle_prjmgr_tools/cli.py`: opens the file (outside the
`try`, so open failures propagate), then `json.load` guarded only against
`JSONDecodeError` (caught: return `[]`), finally `json_dict.get("modules")`
(which is `None` when the key is absent). -/
def load_config (fs : FsT) (path : String) : Except PyError (Option (List String)) :=
  match fs path with
  | .absent => .error .osError
  | .unreadable => .error .osError
  | .readable .malformed => .ok (some [])
  | .readable (.obj modules) => .ok modules
  | .readable .nonObj => .error .attributeError

/-- Lines 102-105 of `cli.py` `main`: expand environment variables in a
candidate location when it contains a `$`. -/
def realLocation (env : EnvT) (location : String) : String :=
  if strContains location dollar then expandvars env location else location

/-- The candidate-location loop of `cli.py` `main` (lines 101-110), carried
over the running `module_list` and `config_found` values; a `load_config`
error propagates out of the loop. -/
def resolveAux (env : EnvT) (fs : FsT) :
    List String → Option (List String) → Bool →
    Except PyError (Option (List String) × Bool)
  | [], module_list, config_found => .ok (module_list, config_found)
  | location :: rest, module_list, config_found =>
    let real_location := realLocation env location
    if isfile fs real_location then
      match load_config fs real_location with
      | .error e => .error e
      | .ok ml => resolveAux env fs rest ml true
    else resolveAux env fs rest module_list config_found

/-- The path of the bundled default configuration resource,
`files("sle_prjmgr_tools.config").joinpath("sle-prjmgr-tools.json")`. -/
def backupConfigPath : String :=
  "sle_prjmgr_tools/config/sle-prjmgr-tools.json"

/-- The configuration-resolution phase of `cli.py` `main` (lines 99-116):
iterate the candidates starting from `module_list = []`, `config_found =
False`; when no candidate matched, load the bundled default resource. -/
def mainResolve (env : EnvT) (fs : FsT) : Except PyError (Option (List String)) :=
  match resolveAux env fs CONFIG_LOCATIONS (some []) false with
  | .error e => .error e
  | .ok (module_list, true) => .ok module_list
  | .ok (_, false) => load_config fs backupConfigPath

end Cli

namespace Config

/-- `CONFIG_LOCATIONS` from `sle_prjmgr_tools/config/__init__.py` (a second,
duplicated copy of the list in `cli.py`). -/
def CONFIG_LOCATIONS : List String :=
  ["/etc/sle-prjmgr-tools.json",
   "$XDG_CONFIG_HOME/sle-prjmgr-tools.json",
   "$RELEASE_MANAGEMENT_TOOLS_FILE"]

/-- `load_config` from `sle_prjmgr_tools/config/__init__.py` (duplicate of
the function of the same name in `cli.py`). -/
def load_config (fs : FsT) (path : String) : Except PyError (Option (List String)) :=
  match fs path with
  | .absent => .error .osError
  | .unreadable => .error .osError
  | .readable .malformed => .ok (some [])
  | .readable (.obj modules) => .ok modules
  | .readable .nonObj => .error .attributeError

/-- The variable-expansion step of `load_modules` (lines 30-33). -/
def realLocation (env : EnvT) (location : String) : String :=
  if strContains location dollar then expandvars env location else location

/-- The candidate-location loop of `load_modules` (lines 29-38). -/
def resolveAux (env : EnvT) (fs : FsT) :
    List String → Option (List String) → Bool →
    Except PyError (Option (List String) × Bool)
  | [], module_list, config_found => .ok (module_list, config_found)
  | location :: rest, module_list, config_found =>
    let real_location := realLocation env location
    if isfile fs real_location then
      match load_config fs real_location with
      | .error e => .error e
      | .ok ml => resolveAux env fs rest ml true
    else resolveAux env fs rest module_list config_found

/-- The bundled default resource path used by `load_modules` (lines 40-42). -/
def backupConfigPath : String :=
  "sle_prjmgr_tools/config/sle-prjmgr-tools.json"

/-- `load_modules` from `sle_prjmgr_tools/config/__init__.py` (lines 23-45). -/
def load_modules (env : EnvT) (fs : FsT) : Except PyError (Option (List String)) :=
  match resolveAux env fs CONFIG_LOCATIONS (some []) false with
  | .error e => .error e
  | .ok (module_list, true) => .ok module_list
  | .ok (_, false) => load_config fs backupConfigPath

end Config

/-!
Plugin modules. Each plugin file `sle_prjmgr_tools/<name>.py` exposes
`build_parser(parent_parser)`, which calls `add_parser(<keyword>, ...)`,
declares the sub-command's own arguments, and (in all modules except
`release_to.py` and `release_to_test.py`) calls
`set_defaults(func=main_cli)`. For the dispatcher the registration is
summarised per module by its keyword, whether its subparser declares
required arguments (so that invoking the bare keyword is an argument-parse
error), and which handler `func` is bound to, if any.
-/

/-- What `set_defaults(func=...)` binds for a sub-command. -/
inductive HandlerSpec
  /-- `version.main_cli`: prints `sle_prjmgr_tools.__version__` and
  returns normally. -/
  | versionCli
  /-- `main_cli` of the named report-generator module; its behaviour
  (output or raised exception) depends on the external world. -/
  | external (modName : String)
deriving DecidableEq

/-- One registered sub-command: the result of a plugin's `build_parser`. -/
structure Plugin where
  /-- The keyword passed to `add_parser`. -/
  keyword : String
  /-- Whether the subparser declares required arguments, so that the bare
  keyword with nothing after it fails to parse. -/
  needsArgs : Bool
  /-- The handler bound with `set_defaults(func=...)`, when any. -/
  func : Option HandlerSpec
deriving DecidableEq

/-- Modelled from the spec: `sle_prjmgr_tools.__version__`
(`sle_prjmgr_tools/__init__.py` is not under `src/`); the spec says only
that the `version` sub-command prints the tool's version string, and no
claim depends on the concrete text. -/
def version_string : String := "sle-prjmgr-tools version"

/-- The registration performed by `sle_prjmgr_tools/version.py`:
keyword `version`, no arguments of its own, `func = version.main_cli`. -/
def version_plugin : Plugin := ⟨"version", false, some .versionCli⟩

/-- Outcome of `importlib.import_module(f".{name}", package="sle_prjmgr_tools")`
followed by `plugin.build_parser(SUBPARSERS)`, per module of the package. -/
inductive ImportOutcome
  /-- The module exists and its `build_parser` registers this sub-command. -/
  | registers (p : Plugin)
  /-- The module (or subpackage) exists but has no `build_parser`
  attribute: `AttributeError`. -/
  | noBuildParser
  /-- No such module in the package: `ModuleNotFoundError`. -/
  | absentModule

/-- The modules of the `sle_prjmgr_tools` package and what importing each
one does, read off from each module's `build_parser` in the source:
every plugin registers a keyword equal to its module name;
`release_to.py` and `release_to_test.py` never call `set_defaults`, so
they bind no `func`; `needsArgs` records required flags, required
positionals, or a required mutually-exclusive group. -/
def moduleTable (name : String) : ImportOutcome :=
  match name with
  | "version" => .registers version_plugin
  | "diff_modules" => .registers ⟨"diff_modules", false, some (.external "diff_modules")⟩
  | "ibs_to_jira" => .registers ⟨"ibs_to_jira", true, some (.external "ibs_to_jira")⟩
  | "incident_repos" => .registers ⟨"incident_repos", true, some (.external "incident_repos")⟩
  | "jira_epics" => .registers ⟨"jira_epics", false, some (.external "jira_epics")⟩
  | "list_accepted_pkgs" => .registers ⟨"list_accepted_pkgs", true, some (.external "list_accepted_pkgs")⟩
  | "package_updates_from_xcdchk" => .registers ⟨"package_updates_from_xcdchk", true, some (.external "package_updates_from_xcdchk")⟩
  | "packagelist_report" => .registers ⟨"packagelist_report", true, some (.external "packagelist_report")⟩
  | "release_to" => .registers ⟨"release_to", true, none⟩
  | "release_to_test" => .registers ⟨"release_to_test", true, none⟩
  | "search_binary" => .registers ⟨"search_binary", true, some (.external "search_binary")⟩
  | "sle_build" => .registers ⟨"sle_build", true, some (.external "sle_build")⟩
  | "update_build_status_page" => .registers ⟨"update_build_status_page", true, some (.external "update_build_status_page")⟩
  | "config" => .noBuildParser
  | "utils" => .noBuildParser
  | "cli" => .noBuildParser
  | _ => .absentModule

namespace Cli

/-- `import_plugin` from `cli.py`: resolve the named module inside the
`sle_prjmgr_tools` package and run its `build_parser` against the shared
subparsers object, appending one sub-command. -/
def import_plugin (name : String) (subparsers : List Plugin) :
    Except PyError (List Plugin) :=
  match moduleTable name with
  | .registers p => .ok (subparsers ++ [p])
  | .noBuildParser => .error .attributeError
  | .absentModule => .error .moduleNotFound

/-- The plugin-loading loop of `cli.py` `main` (lines 117-118):
`for module in module_list: import_plugin(module)`; an import failure
propagates. -/
def loadPlugins : List String → List Plugin → Except PyError (List Plugin)
  | [], subparsers => .ok subparsers
  | m :: rest, subparsers =>
    match import_plugin m subparsers with
    | .error e => .error e
    | .ok subparsers2 => loadPlugins rest subparsers2

/-- The global options added to `PARSER` in `cli.py`, each taking one
value argument. -/
def globalFlags : List String :=
  ["--osc-config", "--osc-instance", "--jira-instance", "--confluence-instance"]

end Cli

/-- The argparse `Namespace` produced by `PARSER.parse_args()`, at the
granularity the dispatcher inspects it: whether a `func` attribute was
bound by a sub-command's `set_defaults`. -/
structure ArgsNamespace where
  /-- The bound handler; `none` when no sub-command set one, in which case
  reading `args.func` raises `AttributeError`. -/
  func : Option HandlerSpec
deriving DecidableEq

namespace Cli

/-- Modelled from the spec (§4.3, §6 CLI surface): the fragment of
`argparse` parsing that the claims exercise — leading global flags, each
consuming one separate value token, followed by at most one sub-command
keyword. Unknown tokens and a bare sub-command whose subparser declares
required arguments are argument-parse failures, `SystemExit(2)`.
Sub-command-specific flags after the keyword are outside the modelled
fragment (no claim exercises them) and are mapped to the parse-failure
exit as well. -/
def parse_args (subparsers : List Plugin) : List String → Except PyError ArgsNamespace
  | [] => .ok ⟨none⟩
  | tok :: rest =>
    if globalFlags.contains tok then
      match rest with
      | [] => .error (.systemExit 2)
      | _ :: rest2 => parse_args subparsers rest2
    else if strStartsWith tok '-' then .error (.systemExit 2)
    else
      match subparsers.find? (fun p => p.keyword == tok) with
      | none => .error (.systemExit 2)
      | some p =>
        if rest.isEmpty && !p.needsArgs then .ok ⟨p.func⟩
        else .error (.systemExit 2)

end Cli

/-- What invoking one handler does: normal completion with printed output
lines, or a raised exception. -/
inductive HandlerResult
  /-- The handler returns normally, having printed these lines. -/
  | success (out : List String)
  /-- The handler raises this exception. -/
  | raise (e : PyError)
deriving DecidableEq

/-- The external world a report-generator handler interacts with: the
behaviour of each external module's `main_cli` on this run. -/
abbrev WorldT := String → HandlerResult

/-- Run a bound handler. `version.main_cli` is pure: it prints the version
string and returns; every other handler behaves as the world dictates. -/
def runHandler (world : WorldT) : HandlerSpec → HandlerResult
  | .versionCli => .success [version_string]
  | .external n => world n

namespace Cli

/-- `main` from `cli.py` (lines 95-120), end to end: resolve the module
list (`mainResolve`); iterate it loading plugins — iterating `None` (a
matched config whose object lacks the `"modules"` key) raises `TypeError`;
parse the argument vector; finally `args.func(args)` — `AttributeError`
when no sub-command bound `func`, and any exception a handler raises
propagates out unhandled, since lines 119-120 contain no `try`/`except`. -/
def main (env : EnvT) (fs : FsT) (world : WorldT) (argv : List String) :
    Except PyError (List String) :=
  match mainResolve env fs with
  | .error e => .error e
  | .ok none => .error .typeError
  | .ok (some module_list) =>
    match loadPlugins module_list [] with
    | .error e => .error e
    | .ok subparsers =>
      match parse_args subparsers argv with
      | .error e => .error e
      | .ok args =>
        match args.func with
        | none => .error .attributeError
        | some f =>
          match runHandler world f with
          | .success out => .ok out
          | .raise e => .error e

end Cli

/-- CPython's top-level behaviour on the result of `main()`: normal return
is exit status 0, an uncaught `SystemExit(code)` exits with `code`, and
any other uncaught exception prints a traceback and exits with status 1. -/
def exitCode (r : Except PyError (List String)) : Nat :=
  match r with
  | .ok _ => 0
  | .error (.systemExit c) => c
  | .error _ => 1

namespace Cli

/-- The path tested for candidate number `k` of `CONFIG_LOCATIONS`: the
location string after the environment-variable expansion of `main`. -/
def candidate (env : EnvT) (k : Fin 3) : String :=
  realLocation env (CONFIG_LOCATIONS.getD k "")

end Cli

/-- The sub-commands that loading a module list registers, in order; a
characterisation of the accumulator `loadPlugins` builds on success. -/
def registeredEntries : List String → List Plugin
  | [] => []
  | m :: rest =>
    match moduleTable m with
    | .registers p => p :: registeredEntries rest
    | .noBuildParser => registeredEntries rest
    | .absentModule => registeredEntries rest

/-- Argument vectors consisting only of global flags, each followed by its
value token — the "only global flags" invocations of the claims. -/
inductive FlagsOnly : List String → Prop
  /-- The empty argument vector. -/
  | nil : FlagsOnly []
  /-- A global flag, its value, then more of the same. -/
  | cons (f v : String) (rest : List String) :
      Cli.globalFlags.contains f = true → FlagsOnly rest → FlagsOnly (f :: v :: rest)

/-!
Concrete environments, filesystem states and worlds used by the witness
and counterexample theorems.
-/

/-- An environment with every variable unset. -/
def envEmpty : EnvT := fun _ => none

/-- An environment with only `XDG_CONFIG_HOME` set. -/
def envXdgSet : EnvT :=
  fun n => if n = "XDG_CONFIG_HOME" then some "/home/geeko/.config" else none

/-- An environment with only `RELEASE_MANAGEMENT_TOOLS_FILE` set. -/
def envReleaseSet : EnvT :=
  fun n => if n = "RELEASE_MANAGEMENT_TOOLS_FILE" then some "/home/geeko/cfg.json" else none

/-- A filesystem with no files at all. -/
def fsAllAbsent : FsT := fun _ => .absent

/-- Only the file named by `RELEASE_MANAGEMENT_TOOLS_FILE` under
`envReleaseSet` exists, and its open fails. -/
def fsReleaseUnreadable : FsT := fun p =>
  if p = "/home/geeko/cfg.json" then .unreadable else .absent

/-- Only the bundled default resource exists; its module list is
`["jira_epics"]`. -/
def fsBundledJiraEpics : FsT := fun p =>
  if p = Cli.backupConfigPath then .readable (.obj (some ["jira_epics"])) else .absent

/-- Only the bundled default resource exists; its module list is empty. -/
def fsBundledEmptyList : FsT := fun p =>
  if p = Cli.backupConfigPath then .readable (.obj (some [])) else .absent

/-- Only the bundled default resource exists; its module list is
`["version"]`. -/
def fsBundledVersion : FsT := fun p =>
  if p = Cli.backupConfigPath then .readable (.obj (some ["version"])) else .absent

/-- Only `/etc/sle-prjmgr-tools.json` exists; it is a JSON object with no
`"modules"` key. -/
def fsEtcNoModulesKey : FsT := fun p =>
  if p = "/etc/sle-prjmgr-tools.json" then .readable (.obj none) else .absent

/-- Only `/etc/sle-prjmgr-tools.json` exists; its content is not JSON. -/
def fsEtcMalformed : FsT := fun p =>
  if p = "/etc/sle-prjmgr-tools.json" then .readable .malformed else .absent

/-- Both `/etc/sle-prjmgr-tools.json` and the file named by
`RELEASE_MANAGEMENT_TOOLS_FILE` under `envReleaseSet` exist, with
different module lists. -/
def fsEtcAndRelease : FsT := fun p =>
  if p = "/etc/sle-prjmgr-tools.json" then .readable (.obj (some ["diff_modules"]))
  else if p = "/home/geeko/cfg.json" then .readable (.obj (some ["sle_build"]))
  else .absent

/-- `fsEtcNoModulesKey` with the bundled default resource altered: used to
show the bundled default is not consulted once a candidate matched. -/
def fsEtcNoModulesKeyAltBundled : FsT := fun p =>
  if p = Cli.backupConfigPath then .readable (.obj (some ["sle_build"]))
  else fsEtcNoModulesKey p

/-- A world where every external handler completes normally with no
output. -/
def worldSilent : WorldT := fun _ => .success []

/-- A world where every external handler raises `socket.gaierror` — the
target host name could not be resolved. -/
def worldGaierror : WorldT := fun _ => .raise .gaierror

/-!
Helper lemmas about the configuration resolver.
-/

namespace Cli

/-- A run of candidates none of which names an existing regular file
leaves the loop state unchanged. -/
theorem resolveAux_skip (env : EnvT) (fs : FsT) :
    ∀ (locs : List String) (ml : Option (List String)) (cf : Bool),
      (∀ x ∈ locs, isfile fs (realLocation env x) = false) →
      resolveAux env fs locs ml cf = .ok (ml, cf) := by
  intro locs
  induction locs with
  | nil => intro ml cf _; rfl
  | cons x rest ih =>
    intro ml cf h
    have hx := h x (by simp)
    simp only [resolveAux, hx, Bool.false_eq_true, if_false]
    exact ih ml cf (fun y hy => h y (List.mem_cons_of_mem _ hy))

/-- When the last matching candidate is `l` (everything after it misses)
and every earlier matching candidate loads without raising, the loop's
result is exactly the load of `l`, whatever state the loop started in. -/
theorem resolveAux_last (env : EnvT) (fs : FsT) :
    ∀ (pre : List String) (l : String) (post : List String)
      (ml : Option (List String)) (cf : Bool),
      isfile fs (realLocation env l) = true →
      (∀ x ∈ post, isfile fs (realLocation env x) = false) →
      (∀ x ∈ pre, isfile fs (realLocation env x) = true →
        ∃ m, load_config fs (realLocation env x) = .ok m) →
      resolveAux env fs (pre ++ l :: post) ml cf =
        (load_config fs (realLocation env l)).map (fun m => (m, true)) := by
  intro pre
  induction pre with
  | nil =>
    intro l post ml cf hl hpost _
    simp only [List.nil_append, resolveAux, hl, if_true]
    cases hlc : load_config fs (realLocation env l) with
    | error e => rfl
    | ok m => simp [resolveAux_skip env fs post m true hpost, Except.map]
  | cons x pre' ih =>
    intro l post ml cf hl hpost hpre
    by_cases hx : isfile fs (realLocation env x) = true
    · obtain ⟨mx, hmx⟩ := hpre x (by simp) hx
      simp only [List.cons_append, resolveAux, hx, if_true, hmx]
      exact ih l post mx true hl hpost (fun y hy hy2 => hpre y (List.mem_cons_of_mem _ hy) hy2)
    · simp only [List.cons_append, resolveAux, eq_false_of_ne_true hx, Bool.false_eq_true,
        if_false]
      exact ih l post ml cf hl hpost (fun y hy hy2 => hpre y (List.mem_cons_of_mem _ hy) hy2)

/-- The loop consults the filesystem only at the expanded candidate
paths. -/
theorem resolveAux_congr (env : EnvT) (fs fs2 : FsT) :
    ∀ (locs : List String) (ml : Option (List String)) (cf : Bool),
      (∀ x ∈ locs, fs2 (realLocation env x) = fs (realLocation env x)) →
      resolveAux env fs2 locs ml cf = resolveAux env fs locs ml cf := by
  intro locs
  induction locs with
  | nil => intro ml cf _; rfl
  | cons x rest ih =>
    intro ml cf h
    have hx := h x (by simp)
    have hrest : ∀ y ∈ rest, fs2 (realLocation env y) = fs (realLocation env y) :=
      fun y hy => h y (List.mem_cons_of_mem _ hy)
    simp only [resolveAux]
    rw [show isfile fs2 (realLocation env x) = isfile fs (realLocation env x) by
          unfold isfile; rw [hx],
        show load_config fs2 (realLocation env x) = load_config fs (realLocation env x) by
          unfold load_config; rw [hx]]
    by_cases hf : isfile fs (realLocation env x) = true
    · simp only [hf, if_true]
      cases load_config fs (realLocation env x) with
      | error e => rfl
      | ok m => exact ih m true hrest
    · simp only [eq_false_of_ne_true hf, Bool.false_eq_true, if_false]
      exact ih ml cf hrest

/-- Once some candidate matched (or the flag was already set), a normal
completion of the loop carries `config_found = true`. -/
theorem resolveAux_found (env : EnvT) (fs : FsT) :
    ∀ (locs : List String) (ml : Option (List String)) (cf : Bool)
      (res : Option (List String) × Bool),
      ((∃ x ∈ locs, isfile fs (realLocation env x) = true) ∨ cf = true) →
      resolveAux env fs locs ml cf = .ok res → res.2 = true := by
  intro locs
  induction locs with
  | nil =>
    intro ml cf res h hres
    rcases h with ⟨x, hx, _⟩ | hcf
    · exact absurd hx (List.not_mem_nil x)
    · subst hcf
      simp only [resolveAux] at hres
      cases hres
      rfl
  | cons x rest ih =>
    intro ml cf res h hres
    by_cases hx : isfile fs (realLocation env x) = true
    · simp only [resolveAux, hx, if_true] at hres
      cases hlc : load_config fs (realLocation env x) with
      | error e => rw [hlc] at hres; cases hres
      | ok m => rw [hlc] at hres; exact ih m true res (Or.inr rfl) hres
    · simp only [resolveAux, eq_false_of_ne_true hx, Bool.false_eq_true, if_false] at hres
      refine ih ml cf res ?_ hres
      rcases h with ⟨y, hy, hfy⟩ | hcf
      · rcases List.mem_cons.mp hy with rfl | hy2
        · exact absurd hfy hx
        · exact Or.inl ⟨y, hy2, hfy⟩
      · exact Or.inr hcf

/-- A matching head candidate whose load raises aborts the loop with that
error. -/
theorem resolveAux_cons_error (env : EnvT) (fs : FsT) (x : String) (rest : List String)
    (ml : Option (List String)) (cf : Bool) (e : PyError)
    (hx : isfile fs (realLocation env x) = true)
    (he : load_config fs (realLocation env x) = .error e) :
    resolveAux env fs (x :: rest) ml cf = .error e := by
  simp only [resolveAux, hx, if_true, he]

/-- A matching candidate whose load raises aborts the loop with that
error, whatever follows it, provided every earlier matching candidate
loads without raising (so the loop reaches it). -/
theorem resolveAux_pre_error (env : EnvT) (fs : FsT) :
    ∀ (pre : List String) (l : String) (post : List String)
      (ml : Option (List String)) (cf : Bool) (e : PyError),
      isfile fs (realLocation env l) = true →
      load_config fs (realLocation env l) = .error e →
      (∀ x ∈ pre, isfile fs (realLocation env x) = true →
        ∃ m, load_config fs (realLocation env x) = .ok m) →
      resolveAux env fs (pre ++ l :: post) ml cf = .error e := by
  intro pre
  induction pre with
  | nil =>
    intro l post ml cf e hl he _
    simpa using resolveAux_cons_error env fs l post ml cf e hl he
  | cons x pre' ih =>
    intro l post ml cf e hl he hpre
    by_cases hx : isfile fs (realLocation env x) = true
    · obtain ⟨mx, hmx⟩ := hpre x (by simp) hx
      simp only [List.cons_append, resolveAux, hx, if_true, hmx]
      exact ih l post mx true e hl he
        (fun y hy hy2 => hpre y (List.mem_cons_of_mem _ hy) hy2)
    · simp only [List.cons_append, resolveAux, eq_false_of_ne_true hx, Bool.false_eq_true,
        if_false]
      exact ih l post ml cf e hl he
        (fun y hy hy2 => hpre y (List.mem_cons_of_mem _ hy) hy2)

/-- A load error at any matching candidate position aborts resolution as
a whole with that error, provided every earlier matching candidate loads
without raising. -/
theorem mainResolve_abort (env : EnvT) (fs : FsT) (j : Fin 3) (e : PyError)
    (hj : isfile fs (candidate env j) = true)
    (he : load_config fs (candidate env j) = .error e)
    (hbefore : ∀ k : Fin 3, k < j → isfile fs (candidate env k) = true →
      ∃ m, load_config fs (candidate env k) = .ok m) :
    mainResolve env fs = .error e := by
  fin_cases j
  · have hl : isfile fs (realLocation env "/etc/sle-prjmgr-tools.json") = true := hj
    have hle : load_config fs (realLocation env "/etc/sle-prjmgr-tools.json") =
        .error e := he
    have hpre : ∀ x ∈ ([] : List String),
        isfile fs (realLocation env x) = true →
        ∃ m, load_config fs (realLocation env x) = .ok m := by
      intro x hx
      exact absurd hx (List.not_mem_nil x)
    unfold mainResolve
    rw [show CONFIG_LOCATIONS =
      [] ++ "/etc/sle-prjmgr-tools.json" ::
        ["$XDG_CONFIG_HOME/sle-prjmgr-tools.json", "$RELEASE_MANAGEMENT_TOOLS_FILE"] from rfl]
    rw [resolveAux_pre_error env fs _ _ _ _ _ _ hl hle hpre]
  · have hl : isfile fs (realLocation env "$XDG_CONFIG_HOME/sle-prjmgr-tools.json") =
        true := hj
    have hle : load_config fs (realLocation env "$XDG_CONFIG_HOME/sle-prjmgr-tools.json") =
        .error e := he
    have hpre : ∀ x ∈ ["/etc/sle-prjmgr-tools.json"],
        isfile fs (realLocation env x) = true →
        ∃ m, load_config fs (realLocation env x) = .ok m := by
      intro x hx
      rcases List.mem_singleton.mp hx with rfl
      exact hbefore 0 (by decide)
    unfold mainResolve
    rw [show CONFIG_LOCATIONS =
      ["/etc/sle-prjmgr-tools.json"] ++
        "$XDG_CONFIG_HOME/sle-prjmgr-tools.json" :: ["$RELEASE_MANAGEMENT_TOOLS_FILE"] from rfl]
    rw [resolveAux_pre_error env fs _ _ _ _ _ _ hl hle hpre]
  · have hl : isfile fs (realLocation env "$RELEASE_MANAGEMENT_TOOLS_FILE") = true := hj
    have hle : load_config fs (realLocation env "$RELEASE_MANAGEMENT_TOOLS_FILE") =
        .error e := he
    have hpre : ∀ x ∈ ["/etc/sle-prjmgr-tools.json", "$XDG_CONFIG_HOME/sle-prjmgr-tools.json"],
        isfile fs (realLocation env x) = true →
        ∃ m, load_config fs (realLocation env x) = .ok m := by
      intro x hx
      rcases List.mem_cons.mp hx with rfl | hx2
      · exact hbefore 0 (by decide)
      · rcases List.mem_singleton.mp hx2 with rfl
        exact hbefore 1 (by decide)
    unfold mainResolve
    rw [show CONFIG_LOCATIONS =
      ["/etc/sle-prjmgr-tools.json", "$XDG_CONFIG_HOME/sle-prjmgr-tools.json"] ++
        "$RELEASE_MANAGEMENT_TOOLS_FILE" :: [] from rfl]
    rw [resolveAux_pre_error env fs _ _ _ _ _ _ hl hle hpre]

/-- When no candidate names an existing regular file, resolution is the
load of the bundled default resource. -/
theorem mainResolve_fallback (env : EnvT) (fs : FsT)
    (h : ∀ k : Fin 3, isfile fs (candidate env k) = false) :
    mainResolve env fs = load_config fs backupConfigPath := by
  have hall : ∀ x ∈ CONFIG_LOCATIONS, isfile fs (realLocation env x) = false := by
    intro x hx
    simp only [CONFIG_LOCATIONS, List.mem_cons, List.not_mem_nil, or_false] at hx
    rcases hx with rfl | rfl | rfl
    · exact h 0
    · exact h 1
    · exact h 2
  unfold mainResolve
  rw [resolveAux_skip env fs CONFIG_LOCATIONS (some []) false hall]

/-- Once some candidate matches, resolution never consults the bundled
default resource: its result is unchanged under any alteration of the
filesystem at the bundled path, provided no expanded candidate aliases
that path. -/
theorem mainResolve_congr (env : EnvT) (fs fs2 : FsT)
    (hmatch : ∃ k : Fin 3, isfile fs (candidate env k) = true)
    (hagree : ∀ p, p ≠ backupConfigPath → fs2 p = fs p)
    (hnoalias : ∀ k : Fin 3, candidate env k ≠ backupConfigPath) :
    mainResolve env fs2 = mainResolve env fs := by
  have hall : ∀ x ∈ CONFIG_LOCATIONS, fs2 (realLocation env x) = fs (realLocation env x) := by
    intro x hx
    simp only [CONFIG_LOCATIONS, List.mem_cons, List.not_mem_nil, or_false] at hx
    rcases hx with rfl | rfl | rfl
    · exact hagree _ (hnoalias 0)
    · exact hagree _ (hnoalias 1)
    · exact hagree _ (hnoalias 2)
  have hexists : ∃ x ∈ CONFIG_LOCATIONS, isfile fs (realLocation env x) = true := by
    obtain ⟨k, hk⟩ := hmatch
    fin_cases k
    · exact ⟨"/etc/sle-prjmgr-tools.json", by simp [CONFIG_LOCATIONS], hk⟩
    · exact ⟨"$XDG_CONFIG_HOME/sle-prjmgr-tools.json", by simp [CONFIG_LOCATIONS], hk⟩
    · exact ⟨"$RELEASE_MANAGEMENT_TOOLS_FILE", by simp [CONFIG_LOCATIONS], hk⟩
  unfold mainResolve
  rw [resolveAux_congr env fs fs2 CONFIG_LOCATIONS (some []) false hall]
  cases hres : resolveAux env fs CONFIG_LOCATIONS (some []) false with
  | error e => rfl
  | ok res =>
    have := resolveAux_found env fs CONFIG_LOCATIONS (some []) false res (Or.inl hexists) hres
    obtain ⟨ml, flag⟩ := res
    simp only at this
    subst this
    rfl

/-- Resolution returns the load of the last matching candidate, provided
every earlier matching candidate loads without raising. -/
theorem mainResolve_last (env : EnvT) (fs : FsT) (j : Fin 3)
    (hj : isfile fs (candidate env j) = true)
    (hafter : ∀ k : Fin 3, j < k → isfile fs (candidate env k) = false)
    (hbefore : ∀ k : Fin 3, k < j → isfile fs (candidate env k) = true →
      ∃ m, load_config fs (candidate env k) = .ok m) :
    mainResolve env fs = load_config fs (candidate env j) := by
  fin_cases j
  · show mainResolve env fs =
      load_config fs (realLocation env "/etc/sle-prjmgr-tools.json")
    have hl : isfile fs (realLocation env "/etc/sle-prjmgr-tools.json") = true := hj
    have hpost : ∀ x ∈ ["$XDG_CONFIG_HOME/sle-prjmgr-tools.json",
        "$RELEASE_MANAGEMENT_TOOLS_FILE"],
        isfile fs (realLocation env x) = false := by
      intro x hx
      rcases List.mem_cons.mp hx with rfl | hx2
      · exact hafter 1 (by decide)
      · rcases List.mem_singleton.mp hx2 with rfl
        exact hafter 2 (by decide)
    have hpre : ∀ x ∈ ([] : List String),
        isfile fs (realLocation env x) = true →
        ∃ m, load_config fs (realLocation env x) = .ok m := by
      intro x hx
      exact absurd hx (List.not_mem_nil x)
    unfold mainResolve
    rw [show CONFIG_LOCATIONS =
      [] ++ "/etc/sle-prjmgr-tools.json" ::
        ["$XDG_CONFIG_HOME/sle-prjmgr-tools.json", "$RELEASE_MANAGEMENT_TOOLS_FILE"] from rfl]
    rw [resolveAux_last env fs _ _ _ _ _ hl hpost hpre]
    cases hlc : load_config fs (realLocation env "/etc/sle-prjmgr-tools.json") with
    | error e => rfl
    | ok m => rfl
  · show mainResolve env fs =
      load_config fs (realLocation env "$XDG_CONFIG_HOME/sle-prjmgr-tools.json")
    have hl : isfile fs (realLocation env "$XDG_CONFIG_HOME/sle-prjmgr-tools.json") = true := hj
    have hpost : ∀ x ∈ ["$RELEASE_MANAGEMENT_TOOLS_FILE"],
        isfile fs (realLocation env x) = false := by
      intro x hx
      rcases List.mem_singleton.mp hx with rfl
      exact hafter 2 (by decide)
    have hpre : ∀ x ∈ ["/etc/sle-prjmgr-tools.json"],
        isfile fs (realLocation env x) = true →
        ∃ m, load_config fs (realLocation env x) = .ok m := by
      intro x hx
      rcases List.mem_singleton.mp hx with rfl
      exact hbefore 0 (by decide)
    unfold mainResolve
    rw [show CONFIG_LOCATIONS =
      ["/etc/sle-prjmgr-tools.json"] ++
        "$XDG_CONFIG_HOME/sle-prjmgr-tools.json" :: ["$RELEASE_MANAGEMENT_TOOLS_FILE"] from rfl]
    rw [resolveAux_last env fs _ _ _ _ _ hl hpost hpre]
    cases hlc : load_config fs (realLocation env "$XDG_CONFIG_HOME/sle-prjmgr-tools.json") with
    | error e => rfl
    | ok m => rfl
  · show mainResolve env fs =
      load_config fs (realLocation env "$RELEASE_MANAGEMENT_TOOLS_FILE")
    have hl : isfile fs (realLocation env "$RELEASE_MANAGEMENT_TOOLS_FILE") = true := hj
    have hpost : ∀ x ∈ ([] : List String),
        isfile fs (realLocation env x) = false := by
      intro x hx
      exact absurd hx (List.not_mem_nil x)
    have hpre : ∀ x ∈ ["/etc/sle-prjmgr-tools.json", "$XDG_CONFIG_HOME/sle-prjmgr-tools.json"],
        isfile fs (realLocation env x) = true →
        ∃ m, load_config fs (realLocation env x) = .ok m := by
      intro x hx
      rcases List.mem_cons.mp hx with rfl | hx2
      · exact hbefore 0 (by decide)
      · rcases List.mem_singleton.mp hx2 with rfl
        exact hbefore 1 (by decide)
    unfold mainResolve
    rw [show CONFIG_LOCATIONS =
      ["/etc/sle-prjmgr-tools.json", "$XDG_CONFIG_HOME/sle-prjmgr-tools.json"] ++
        "$RELEASE_MANAGEMENT_TOOLS_FILE" :: [] from rfl]
    rw [resolveAux_last env fs _ _ _ _ _ hl hpost hpre]
    cases hlc : load_config fs (realLocation env "$RELEASE_MANAGEMENT_TOOLS_FILE") with
    | error e => rfl
    | ok m => rfl

end Cli

/-!
The duplicated resolver: `cli.py`'s resolution phase and
`config/__init__.py`'s `load_modules` are extensionally equal.
-/

/-- The two copies of `load_config` agree on every filesystem and path. -/
theorem load_config_eq (fs : FsT) (p : String) :
    Cli.load_config fs p = Config.load_config fs p := by
  unfold Cli.load_config Config.load_config
  cases fs p with
  | absent => rfl
  | unreadable => rfl
  | readable doc => cases doc <;> rfl

/-- The two copies of the expansion step agree. -/
theorem realLocation_eq (env : EnvT) (x : String) :
    Cli.realLocation env x = Config.realLocation env x := rfl

/-- The two copies of the candidate loop agree on every state. -/
theorem resolveAux_eq (env : EnvT) (fs : FsT) :
    ∀ (locs : List String) (ml : Option (List String)) (cf : Bool),
      Cli.resolveAux env fs locs ml cf = Config.resolveAux env fs locs ml cf := by
  intro locs
  induction locs with
  | nil => intro ml cf; rfl
  | cons x rest ih =>
    intro ml cf
    simp only [Cli.resolveAux, Config.resolveAux]
    rw [← realLocation_eq env x, ← load_config_eq fs (Cli.realLocation env x)]
    by_cases hf : isfile fs (Cli.realLocation env x) = true
    · simp only [hf, if_true]
      cases Cli.load_config fs (Cli.realLocation env x) with
      | error e => rfl
      | ok m => exact ih m true
    · simp only [eq_false_of_ne_true hf, Bool.false_eq_true, if_false]
      exact ih ml cf

/-- The resolution phase of `cli.main` equals `config.load_modules`. -/
theorem mainResolve_eq_load_modules (env : EnvT) (fs : FsT) :
    Cli.mainResolve env fs = Config.load_modules env fs := by
  unfold Cli.mainResolve Config.load_modules
  rw [show Cli.CONFIG_LOCATIONS = Config.CONFIG_LOCATIONS from rfl,
    resolveAux_eq env fs Config.CONFIG_LOCATIONS (some []) false]
  cases Config.resolveAux env fs Config.CONFIG_LOCATIONS (some []) false with
  | error e => rfl
  | ok res =>
    obtain ⟨ml, flag⟩ := res
    cases flag
    · exact load_config_eq fs _
    · rfl

/-!
Helper lemmas about plugin loading and argument parsing.
-/

/-- Every row of the module table registers a sub-command keyed by the
module's own name. -/
theorem moduleTable_keyword (m : String) (p : Plugin)
    (h : moduleTable m = .registers p) : p.keyword = m := by
  unfold moduleTable at h
  split at h <;> simp_all [Plugin.mk.injEq] <;> (cases h; rfl)

/-- A successful plugin-loading loop appends exactly the registered
entries of the module list to its accumulator. -/
theorem loadPlugins_ok :
    ∀ (l : List String) (acc ps : List Plugin),
      Cli.loadPlugins l acc = .ok ps → ps = acc ++ registeredEntries l := by
  intro l
  induction l with
  | nil =>
    intro acc ps h
    cases h
    simp [registeredEntries]
  | cons m rest ih =>
    intro acc ps h
    simp only [Cli.loadPlugins, Cli.import_plugin] at h
    cases hm : moduleTable m with
    | registers p =>
      rw [hm] at h
      have := ih (acc ++ [p]) ps h
      simp [registeredEntries, hm, this]
    | noBuildParser => rw [hm] at h; cases h
    | absentModule => rw [hm] at h; cases h

/-- The `version` sub-command is registered exactly when the module list
names the `version` module. -/
theorem find_version :
    ∀ l : List String,
      (registeredEntries l).find? (fun p => p.keyword == "version") =
        if "version" ∈ l then some version_plugin else none := by
  intro l
  induction l with
  | nil => rfl
  | cons m rest ih =>
    by_cases hv : m = "version"
    · subst hv
      simp only [registeredEntries,
        show moduleTable "version" = .registers version_plugin from rfl]
      simp [List.find?, version_plugin]
    · cases hm : moduleTable m with
      | registers p =>
        have hk : p.keyword = m := moduleTable_keyword m p hm
        have hne : (p.keyword == "version") = false := by
          rw [hk]
          exact beq_eq_false_iff_ne.mpr hv
        simp only [registeredEntries, hm, List.find?, hne, ih]
        simp [List.mem_cons, Ne.symm hv]
      | noBuildParser =>
        simp only [registeredEntries, hm, ih]
        simp [List.mem_cons, Ne.symm hv]
      | absentModule =>
        simp only [registeredEntries, hm, ih]
        simp [List.mem_cons, Ne.symm hv]

/-- A flags-only argument vector parses to a namespace with no bound
handler. -/
theorem parse_args_flagsOnly (subs : List Plugin) :
    ∀ argv, FlagsOnly argv → Cli.parse_args subs argv = .ok ⟨none⟩ := by
  intro argv h
  induction h with
  | nil => rfl
  | cons f v rest hf _ ih =>
    simp only [Cli.parse_args, hf, if_true]
    exact ih

/-- Parsing `["version"]` when the `version` sub-command is registered
binds the version handler. -/
theorem parse_args_version_found (subs : List Plugin)
    (h : subs.find? (fun p => p.keyword == "version") = some version_plugin) :
    Cli.parse_args subs ["version"] = .ok ⟨some .versionCli⟩ := by
  simp [Cli.parse_args, h, version_plugin, Cli.globalFlags,
    show strStartsWith "version" '-' = false from rfl]

/-- Parsing `["version"]` when no `version` sub-command is registered is
an argument-parse failure. -/
theorem parse_args_version_missing (subs : List Plugin)
    (h : subs.find? (fun p => p.keyword == "version") = none) :
    Cli.parse_args subs ["version"] = .error (.systemExit 2) := by
  simp [Cli.parse_args, h, Cli.globalFlags,
    show strStartsWith "version" '-' = false from rfl]

/-!
The claims.
-/

/-- Claim C1: when more than one of the three candidate configuration
locations names an existing regular file, resolution returns the module
list parsed from the last matching candidate in the fixed iteration
order (`/etc` path, then `XDG_CONFIG_HOME` path, then
`RELEASE_MANAGEMENT_TOOLS_FILE` path), not from any earlier matching
candidate — the loop does not break on first match and later matches
overwrite earlier ones. (Earlier matching candidates are assumed to load
without raising; an open failure there is claim C10's subject.) -/
theorem claim_C1 (env : EnvT) (fs : FsT) (i j : Fin 3) (hij : i < j)
    (hi : isfile fs (Cli.candidate env i) = true)
    (hj : isfile fs (Cli.candidate env j) = true)
    (hafter : ∀ k : Fin 3, j < k → isfile fs (Cli.candidate env k) = false)
    (hbefore : ∀ k : Fin 3, k < j → isfile fs (Cli.candidate env k) = true →
      ∃ m, Cli.load_config fs (Cli.candidate env k) = .ok m) :
    Cli.mainResolve env fs = Cli.load_config fs (Cli.candidate env j) :=
  Cli.mainResolve_last env fs j hj hafter hbefore

/-- Witness for C1: with the `/etc` file holding `["diff_modules"]` and
the `RELEASE_MANAGEMENT_TOOLS_FILE` target holding `["sle_build"]`, both
existing, resolution returns the later candidate's list. -/
theorem claim_C1_witness :
    ((0 : Fin 3) < 2 ∧
      isfile fsEtcAndRelease (Cli.candidate envReleaseSet 0) = true ∧
      isfile fsEtcAndRelease (Cli.candidate envReleaseSet 2) = true) ∧
    Cli.mainResolve envReleaseSet fsEtcAndRelease =
      Cli.load_config fsEtcAndRelease (Cli.candidate envReleaseSet 2) ∧
    Cli.mainResolve envReleaseSet fsEtcAndRelease = .ok (some ["sle_build"]) := by
  refine ⟨⟨by decide, by decide, by decide⟩, ?_, rfl⟩
  exact claim_C1 envReleaseSet fsEtcAndRelease 0 2 (by decide) (by decide) (by decide)
    (by decide)
    (by
      intro k hk hf
      fin_cases k
      · exact ⟨some ["diff_modules"], rfl⟩
      · exact absurd hf (by decide)
      · exact absurd hk (by decide))

/-- Claim C2: when none of the three candidate locations names an
existing regular file, resolution parses the bundled default resource
and returns exactly its module list; and the bundled default is consulted
only in that zero-matches case — once some candidate matches, the result
is unchanged under any alteration of the filesystem at the bundled path
(provided no expanded candidate aliases that path). -/
theorem claim_C2 (env : EnvT) (fs fs2 : FsT) :
    ((∀ k : Fin 3, isfile fs (Cli.candidate env k) = false) →
      Cli.mainResolve env fs = Cli.load_config fs Cli.backupConfigPath)
    ∧ ((∃ k : Fin 3, isfile fs (Cli.candidate env k) = true) →
      (∀ p, p ≠ Cli.backupConfigPath → fs2 p = fs p) →
      (∀ k : Fin 3, Cli.candidate env k ≠ Cli.backupConfigPath) →
      Cli.mainResolve env fs2 = Cli.mainResolve env fs) :=
  ⟨Cli.mainResolve_fallback env fs,
   fun hmatch hagree hnoalias => Cli.mainResolve_congr env fs fs2 hmatch hagree hnoalias⟩

/-- Witness for C2: with no files at all, resolution is the bundled
load; and with a matching `/etc` candidate, changing the bundled
resource's content does not change the result. -/
theorem claim_C2_witness :
    (Cli.mainResolve envEmpty fsAllAbsent =
      Cli.load_config fsAllAbsent Cli.backupConfigPath) ∧
    (Cli.mainResolve envEmpty fsEtcNoModulesKeyAltBundled =
      Cli.mainResolve envEmpty fsEtcNoModulesKey) := by
  constructor
  · exact (claim_C2 envEmpty fsAllAbsent fsAllAbsent).1 (by decide)
  · exact (claim_C2 envEmpty fsEtcNoModulesKey fsEtcNoModulesKeyAltBundled).2
      ⟨0, by decide⟩
      (by
        intro p hp
        simp only [fsEtcNoModulesKeyAltBundled, if_neg hp])
      (by decide)

/-- Claim C3: a matched candidate with malformed (non-JSON) content loads
as an empty module list without raising; the candidate still counts as a
found configuration source, so resolution completes normally with the
empty list — no abort and no fall-back to the bundled default (the
conclusion holds for every filesystem satisfying the hypotheses, whatever
the bundled resource holds). Stated for a malformed last match, with
earlier matches loading without raising. -/
theorem claim_C3 (env : EnvT) (fs : FsT) (j : Fin 3) (p : String)
    (hmal : fs (Cli.candidate env j) = .readable .malformed)
    (hafter : ∀ k : Fin 3, j < k → isfile fs (Cli.candidate env k) = false)
    (hbefore : ∀ k : Fin 3, k < j → isfile fs (Cli.candidate env k) = true →
      ∃ m, Cli.load_config fs (Cli.candidate env k) = .ok m) :
    (fs p = .readable .malformed → Cli.load_config fs p = .ok (some [])) ∧
      Cli.mainResolve env fs = .ok (some []) := by
  constructor
  · intro hp
    unfold Cli.load_config
    rw [hp]
  · have hj : isfile fs (Cli.candidate env j) = true := by
      unfold isfile; rw [hmal]
    rw [Cli.mainResolve_last env fs j hj hafter hbefore]
    unfold Cli.load_config
    rw [hmal]

/-- Witness for C3: the spec's own test vector — only the `/etc`
candidate exists and its content is invalid JSON; the result is the
empty list, not an error and not the bundled default. -/
theorem claim_C3_witness :
    (Cli.load_config fsEtcMalformed "/etc/sle-prjmgr-tools.json" = .ok (some [])) ∧
      Cli.mainResolve envEmpty fsEtcMalformed = .ok (some []) := by
  have h := claim_C3 envEmpty fsEtcMalformed 0 "/etc/sle-prjmgr-tools.json" rfl
    (by decide) (fun k hk _ => by simp [Fin.lt_def] at hk)
  exact ⟨h.1 rfl, h.2⟩

/-- Counterexample to claim C4 as stated: under a configuration whose
module list is empty, no `version` plugin has been loaded, so invoking
the tool with the `version` sub-command is an argument-parse failure with
exit status 2 — it does not print the version and does not exit 0. -/
theorem claim_C4_counterexample :
    Cli.main envEmpty fsBundledEmptyList worldSilent ["version"] = .error (.systemExit 2) ∧
    exitCode (Cli.main envEmpty fsBundledEmptyList worldSilent ["version"]) = 2 :=
  ⟨rfl, rfl⟩

/-- Claim C4 as amended: `cli.main` performs no unconditional load of the
`version` plugin; the plugin-loading loop loads exactly the modules named
by configuration, so the `version` sub-command works (prints the version
string, exits 0) precisely when the resolved module list contains
`"version"`, and otherwise invoking `version` is an argument-parse
failure (exit 2). -/
theorem claim_C4_amended (env : EnvT) (fs : FsT) (world : WorldT)
    (l : List String) (ps : List Plugin)
    (h1 : Cli.mainResolve env fs = .ok (some l))
    (h2 : Cli.loadPlugins l [] = .ok ps) :
    Cli.main env fs world ["version"] =
      if "version" ∈ l then .ok [version_string] else .error (.systemExit 2) := by
  have hps : ps = registeredEntries l := by simpa using loadPlugins_ok l [] ps h2
  subst hps
  simp only [Cli.main, h1, h2]
  by_cases hv : "version" ∈ l
  · rw [parse_args_version_found _ (by rw [find_version]; simp [hv])]
    simp [runHandler, hv]
  · rw [parse_args_version_missing _ (by rw [find_version]; simp [hv])]
    simp [hv]

/-- Witness for amended C4: with a configuration naming `version`, the
`version` sub-command prints the version string. -/
theorem claim_C4_witness :
    Cli.main envEmpty fsBundledVersion worldSilent ["version"] = .ok [version_string] := by
  have h := claim_C4_amended envEmpty fsBundledVersion worldSilent ["version"]
    [version_plugin] rfl rfl
  simpa using h

/-- Counterexample to claim C5 as stated: a handler raising the
name-resolution failure `socket.gaierror` propagates it out of
`cli.main` raw — the dispatcher prints no remediation message and
performs no controlled `exit(1)`; lines 119-120 contain no handling. -/
theorem claim_C5_counterexample :
    Cli.main envEmpty fsBundledJiraEpics worldGaierror ["jira_epics"] = .error .gaierror :=
  rfl

/-- Claim C5 as amended: a handler invocation that raises a network
name-resolution failure propagates the raw exception out of the
dispatcher unhandled; the process then terminates with exit status 1
only via the interpreter's uncaught-exception traceback, not via any
remediation message. -/
theorem claim_C5_amended (env : EnvT) (fs : FsT) (world : WorldT)
    (l : List String) (ps : List Plugin) (cmd n : String)
    (h1 : Cli.mainResolve env fs = .ok (some l))
    (h2 : Cli.loadPlugins l [] = .ok ps)
    (h3 : Cli.parse_args ps [cmd] = .ok ⟨some (.external n)⟩)
    (h4 : world n = .raise .gaierror) :
    Cli.main env fs world [cmd] = .error .gaierror ∧
      exitCode (Cli.main env fs world [cmd]) = 1 := by
  have : Cli.main env fs world [cmd] = .error .gaierror := by
    simp only [Cli.main, h1, h2, h3]
    simp [runHandler, h4]
  exact ⟨this, by rw [this]; rfl⟩

/-- Witness for amended C5: the `jira_epics` handler raising
`socket.gaierror` surfaces as the uncaught error of `main`. -/
theorem claim_C5_witness :
    Cli.main envEmpty fsBundledJiraEpics worldGaierror ["jira_epics"] = .error .gaierror ∧
      exitCode (Cli.main envEmpty fsBundledJiraEpics worldGaierror ["jira_epics"]) = 1 :=
  claim_C5_amended envEmpty fsBundledJiraEpics worldGaierror
    ["jira_epics"] [⟨"jira_epics", false, some (.external "jira_epics")⟩]
    "jira_epics" "jira_epics" rfl rfl rfl rfl

/-- Counterexample to claim C6 as stated: invoking the tool with zero
arguments does not print help via a controlled exit; `args.func` raises
`AttributeError`, which escapes `main` uncaught (the exit status 1 comes
from the interpreter's traceback, with no help text printed). -/
theorem claim_C6_counterexample :
    Cli.main envEmpty fsBundledEmptyList worldSilent [] = .error .attributeError ∧
    exitCode (Cli.main envEmpty fsBundledEmptyList worldSilent []) = 1 :=
  ⟨rfl, rfl⟩

/-- Claim C6 as amended: when the parsed argument vector binds no handler
(no sub-command: zero arguments or only global flags), `args.func` raises
`AttributeError`, which propagates out of the dispatcher uncaught; the
process exits with status 1 via the interpreter's traceback, and no help
text is printed. -/
theorem claim_C6_amended (env : EnvT) (fs : FsT) (world : WorldT)
    (argv : List String) (l : List String) (ps : List Plugin)
    (h1 : Cli.mainResolve env fs = .ok (some l))
    (h2 : Cli.loadPlugins l [] = .ok ps)
    (h3 : FlagsOnly argv) :
    Cli.main env fs world argv = .error .attributeError ∧
      exitCode (Cli.main env fs world argv) = 1 := by
  have : Cli.main env fs world argv = .error .attributeError := by
    simp only [Cli.main, h1, h2, parse_args_flagsOnly ps argv h3]
  exact ⟨this, by rw [this]; rfl⟩

/-- Witness for amended C6: an invocation with only a global flag and its
value crashes with `AttributeError`. -/
theorem claim_C6_witness :
    Cli.main envEmpty fsBundledJiraEpics worldSilent
        ["--osc-instance", "https://api.opensuse.org"] = .error .attributeError ∧
      exitCode (Cli.main envEmpty fsBundledJiraEpics worldSilent
        ["--osc-instance", "https://api.opensuse.org"]) = 1 :=
  claim_C6_amended envEmpty fsBundledJiraEpics worldSilent
    ["--osc-instance", "https://api.opensuse.org"]
    ["jira_epics"] [⟨"jira_epics", false, some (.external "jira_epics")⟩]
    rfl rfl (FlagsOnly.cons _ _ _ (by decide) FlagsOnly.nil)

/-- Claim C7 is right about the intent and the code is wrong: at a
matched candidate holding a JSON object with no `"modules"` key,
`load_config` returns `json_dict.get("modules")`, which is `None` — not
the empty list its `List[str]` annotation and docstring promise — and
the subsequent plugin-loading loop then raises `TypeError` iterating
`None` instead of completing. This theorem evaluates the code at the
failing input (an `/etc` configuration file whose content is `{}`). -/
theorem claim_C7_bug :
    Cli.load_config fsEtcNoModulesKey "/etc/sle-prjmgr-tools.json" = .ok none ∧
    Cli.mainResolve envEmpty fsEtcNoModulesKey = .ok none ∧
    Cli.main envEmpty fsEtcNoModulesKey worldSilent [] = .error .typeError :=
  ⟨rfl, rfl, rfl⟩

/-- Counterexample to claim C8 as stated: with every variable unset,
expansion leaves the reference unchanged (CPython's `expandvars` keeps
unset references literally), so the tested path is the original
`$`-string — not the empty-string expansion the claim asserts. -/
theorem claim_C8_counterexample :
    Cli.realLocation envEmpty "$RELEASE_MANAGEMENT_TOOLS_FILE" =
        "$RELEASE_MANAGEMENT_TOOLS_FILE" ∧
      Cli.realLocation envEmpty "$RELEASE_MANAGEMENT_TOOLS_FILE" ≠ "" ∧
      Cli.realLocation envEmpty "$XDG_CONFIG_HOME/sle-prjmgr-tools.json" ≠
        "/sle-prjmgr-tools.json" := by
  refine ⟨rfl, ?_, ?_⟩ <;> decide

/-- Claim C8 as amended: for a candidate containing a `$`-reference, the
existence test is applied to the expanded string, where a set variable is
replaced by its value but an unset variable's reference is left
unchanged (not replaced by the empty string); a resulting path that is
not an existing regular file is skipped — when nothing matches,
resolution falls back to the bundled default rather than erroring. -/
theorem claim_C8_amended (env : EnvT) (fs : FsT) (v w : String) :
    (env "XDG_CONFIG_HOME" = some v →
      Cli.realLocation env "$XDG_CONFIG_HOME/sle-prjmgr-tools.json" =
        v ++ "/sle-prjmgr-tools.json")
    ∧ (env "XDG_CONFIG_HOME" = none →
      Cli.realLocation env "$XDG_CONFIG_HOME/sle-prjmgr-tools.json" =
        "$XDG_CONFIG_HOME/sle-prjmgr-tools.json")
    ∧ (env "RELEASE_MANAGEMENT_TOOLS_FILE" = some w →
      Cli.realLocation env "$RELEASE_MANAGEMENT_TOOLS_FILE" = w)
    ∧ (env "RELEASE_MANAGEMENT_TOOLS_FILE" = none →
      Cli.realLocation env "$RELEASE_MANAGEMENT_TOOLS_FILE" =
        "$RELEASE_MANAGEMENT_TOOLS_FILE")
    ∧ ((∀ k : Fin 3, isfile fs (Cli.candidate env k) = false) →
      Cli.mainResolve env fs = Cli.load_config fs Cli.backupConfigPath) := by
  refine ⟨?_, ?_, ?_, ?_, Cli.mainResolve_fallback env fs⟩
  · intro h
    show String.mk (match env "XDG_CONFIG_HOME" with
        | some u => u.data ++ "/sle-prjmgr-tools.json".data
        | none => "$XDG_CONFIG_HOME/sle-prjmgr-tools.json".data) =
      v ++ "/sle-prjmgr-tools.json"
    rw [h]
    rfl
  · intro h
    show String.mk (match env "XDG_CONFIG_HOME" with
        | some u => u.data ++ "/sle-prjmgr-tools.json".data
        | none => "$XDG_CONFIG_HOME/sle-prjmgr-tools.json".data) =
      "$XDG_CONFIG_HOME/sle-prjmgr-tools.json"
    rw [h]
  · intro h
    show String.mk (match env "RELEASE_MANAGEMENT_TOOLS_FILE" with
        | some u => u.data ++ ([] : List Char)
        | none => "$RELEASE_MANAGEMENT_TOOLS_FILE".data) = w
    rw [h]
    simp
  · intro h
    show String.mk (match env "RELEASE_MANAGEMENT_TOOLS_FILE" with
        | some u => u.data ++ ([] : List Char)
        | none => "$RELEASE_MANAGEMENT_TOOLS_FILE".data) =
      "$RELEASE_MANAGEMENT_TOOLS_FILE"
    rw [h]

/-- Witness for amended C8: set and unset variables for both `$`-bearing
candidates, and the skip-without-error fallback on an empty
filesystem. -/
theorem claim_C8_witness :
    Cli.realLocation envXdgSet "$XDG_CONFIG_HOME/sle-prjmgr-tools.json" =
        "/home/geeko/.config" ++ "/sle-prjmgr-tools.json" ∧
      Cli.realLocation envEmpty "$XDG_CONFIG_HOME/sle-prjmgr-tools.json" =
        "$XDG_CONFIG_HOME/sle-prjmgr-tools.json" ∧
      Cli.realLocation envReleaseSet "$RELEASE_MANAGEMENT_TOOLS_FILE" =
        "/home/geeko/cfg.json" ∧
      Cli.realLocation envEmpty "$RELEASE_MANAGEMENT_TOOLS_FILE" =
        "$RELEASE_MANAGEMENT_TOOLS_FILE" ∧
      Cli.mainResolve envEmpty fsAllAbsent =
        Cli.load_config fsAllAbsent Cli.backupConfigPath :=
  ⟨(claim_C8_amended envXdgSet fsAllAbsent "/home/geeko/.config" "x").1 rfl,
   (claim_C8_amended envEmpty fsAllAbsent "x" "x").2.1 rfl,
   (claim_C8_amended envReleaseSet fsAllAbsent "x" "/home/geeko/cfg.json").2.2.1 rfl,
   (claim_C8_amended envEmpty fsAllAbsent "x" "x").2.2.2.1 rfl,
   (claim_C8_amended envEmpty fsAllAbsent "x" "x").2.2.2.2 (by decide)⟩

/-- Claim C9: the configuration-resolution phase of `cli.main` and the
standalone `config.load_modules` (with their duplicated `load_config`
helpers) are extensionally equal on every environment and filesystem
state. -/
theorem claim_C9 (env : EnvT) (fs : FsT) :
    (∀ p, Cli.load_config fs p = Config.load_config fs p) ∧
      Cli.mainResolve env fs = Config.load_modules env fs :=
  ⟨fun p => load_config_eq fs p, mainResolve_eq_load_modules env fs⟩

/-- Claim C10: only JSON syntax errors are recovered — the `open` sits
outside the guarded `try`, so every matched candidate (at any of the
three positions `j`, the expanded `$`-candidates included) whose open
fails (permission denied, or the file vanished after the existence test)
makes `load_config` raise `OSError`, and that error propagates out and
aborts resolution as a whole instead of being converted to an empty
module list; shown locally for every path, and end to end for every
unreadable matched candidate position (earlier matching candidates load
without raising, so the loop reaches position `j`). -/
theorem claim_C10 (env : EnvT) (fs : FsT) (j : Fin 3) (p : String)
    (hj : fs (Cli.candidate env j) = .unreadable)
    (hbefore : ∀ k : Fin 3, k < j → isfile fs (Cli.candidate env k) = true →
      ∃ m, Cli.load_config fs (Cli.candidate env k) = .ok m) :
    (fs p = .unreadable → Cli.load_config fs p = .error .osError)
    ∧ Cli.mainResolve env fs = .error .osError := by
  constructor
  · intro h
    unfold Cli.load_config
    rw [h]
  · have hx : isfile fs (Cli.candidate env j) = true := by
      unfold isfile; rw [hj]
    have he : Cli.load_config fs (Cli.candidate env j) = .error .osError := by
      unfold Cli.load_config; rw [hj]
    exact Cli.mainResolve_abort env fs j .osError hx he hbefore

/-- Witness for C10: under `envReleaseSet` the third candidate expands to
`/home/geeko/cfg.json`; with that file existing but unreadable (and the
other candidates absent), the single load raises `OSError` and
resolution as a whole aborts with it. -/
theorem claim_C10_witness :
    Cli.load_config fsReleaseUnreadable "/home/geeko/cfg.json" = .error .osError ∧
      Cli.mainResolve envReleaseSet fsReleaseUnreadable = .error .osError := by
  have h := claim_C10 envReleaseSet fsReleaseUnreadable 2 "/home/geeko/cfg.json" rfl
    (by
      intro k hk hf
      fin_cases k
      · exact absurd hf (by decide)
      · exact absurd hf (by decide)
      · exact absurd hk (by decide))
  exact ⟨h.1 rfl, h.2⟩
